import Mathlib

/-!
Verification of the CSV data-cleansing pipeline (src/main.py, class DataCleaner).

The pipeline is shallowly embedded: a DataFrame cell is a `Value` (Python scalar
or list), a row (`Record`) is its ordered column/value pairs, and a batch is a
list of records.  Python code that can raise returns `Option`; `none` models an
uncaught exception.  Python string operations are modelled on `List Char`
(ASCII; the source data this job handles is ASCII).  The permissive
`pd.to_datetime(s, dayfirst=True)` fallback of `_parse_date` is a pandas
library call, not code of this repository, so it is a parameter
`fallback : String → Option String` (its `strftime('%Y-%m-%d')` output on
success, `none` when it raises).
-/

/-- Python `str.strip()` whitespace characters (ASCII subset). -/
def isWS (c : Char) : Bool :=
  c = ' ' || c = '\t' || c = '\n' || c = '\r' || c = '\x0b' || c = '\x0c'

/-- Strip whitespace from both ends of a character list (Python `str.strip()`). -/
def trimChars (cs : List Char) : List Char :=
  ((cs.dropWhile isWS).reverse.dropWhile isWS).reverse

/-- Python `value.strip()` on a string. -/
def pyStrip (s : String) : String :=
  String.mk (trimChars s.data)

/-- ASCII upper-casing of one character (Python `str.upper()` on ASCII data). -/
def charUpper (c : Char) : Char :=
  if 97 ≤ c.toNat ∧ c.toNat ≤ 122 then Char.ofNat (c.toNat - 32) else c

/-- Python `str.upper()` (ASCII). -/
def pyUpper (s : String) : String :=
  String.mk (s.data.map charUpper)

/-- A single-quote character as a string (used when rendering Python lists). -/
def sqChar : String := String.mk ['\'']

/-- A dynamically-typed DataFrame cell: missing value (NaN/None), string,
integer, or a list of strings (the shape `_parse_array` produces). -/
inductive Value
  | null
  | str (s : String)
  | intV (n : Int)
  | listV (xs : List String)
deriving DecidableEq

/-- Python `str(value)`: `str(nan) = "nan"`, integers and lists render the
Python way (`str(['a']) = "['a']"`). -/
def pyStr : Value → String
  | Value.null => "nan"
  | Value.str s => s
  | Value.intV n => toString n
  | Value.listV xs =>
      "[" ++ String.intercalate ", " (xs.map (fun x => sqChar ++ x ++ sqChar)) ++ "]"

/-- Truth value of `pd.isna(value)` as Python's `if` sees it.  For scalars it
is a plain bool.  For a list, `pd.isna` returns an elementwise boolean array:
taking its truth value raises (`none`) when it has two or more elements, and is
`False` for zero (numpy 1.x) or one element (the elements are strings, never
missing). -/
def pdIsnaB : Value → Option Bool
  | Value.null => some true
  | Value.listV [] => some false
  | Value.listV [_] => some false
  | Value.listV _ => none
  | _ => some false

/-- Truth value of `pd.notna(value)` as Python's `if` sees it (see `pdIsnaB`;
for a one-element list the single `True` entry makes the array truthy). -/
def pdNotna : Value → Option Bool
  | Value.null => some false
  | Value.listV [] => some false
  | Value.listV [_] => some true
  | Value.listV _ => none
  | _ => some true

/-- An ordered row: column names paired with cell values, in column order. -/
abbrev Record : Type := List (String × Value)

/-- `row[c]` lookup: the first cell whose column is `c` (pandas raises
`KeyError`, i.e. `none`, when the column is absent). -/
def pyLookup (r : Record) (c : String) : Option Value :=
  (r.find? (fun p => p.1 = c)).map Prod.snd

/-- Whether a row has a column named `c`. -/
def hasCol (r : Record) (c : String) : Bool :=
  (r.map Prod.fst).contains c

/-- The dedup mask of `df.duplicated(subset=[k], keep='first')`: scanning in
order, an entry is `true` iff its key was already seen (pandas treats NaN keys
as equal to each other, which `DecidableEq` on the key type captures). -/
def duplicatedMask {K R : Type} [DecidableEq K] (key : R → K) :
    List K → List R → List Bool
  | _, [] => []
  | seen, r :: rs =>
    if key r ∈ seen then true :: duplicatedMask key seen rs
    else false :: duplicatedMask key (key r :: seen) rs

/-- `DataCleaner.clean_data`: `clean = df[~mask]`, `dup = df[mask]` for the
first-seen duplicate mask on the key column. -/
def clean_data {K R : Type} [DecidableEq K] (key : R → K) (batch : List R) :
    List R × List R :=
  let mask := duplicatedMask key [] batch
  (((batch.zip mask).filter (fun p => !p.2)).map Prod.fst,
   ((batch.zip mask).filter (fun p => p.2)).map Prod.fst)

/-- One token of a `strptime` format: `%d`, `%m`, `%Y`, or a literal char. -/
inductive DTok
  | D
  | M
  | Y
  | lit (c : Char)

/-- Parsed day/month/year fields (defaults as in Python's `strptime`). -/
structure DMY where
  d : Nat := 1
  m : Nat := 1
  y : Nat := 1900
deriving DecidableEq

/-- Numeric value of an ASCII digit character. -/
def charVal (c : Char) : Nat := c.toNat - 48

/-- Two-digit day alternatives of Python's `%d` regex, `3[01]|[12]\d|0[1-9]`. -/
def day2 (a b : Char) : Bool :=
  (a = '3' && (b = '0' || b = '1')) || ((a = '1' || a = '2') && b.isDigit) ||
    (a = '0' && ('1' ≤ b && b ≤ '9'))

/-- One-digit day alternative of `%d`, `[1-9]`. -/
def day1 (a : Char) : Bool := '1' ≤ a && a ≤ '9'

/-- Two-digit month alternatives of `%m`, `1[0-2]|0[1-9]`. -/
def month2 (a b : Char) : Bool :=
  (a = '1' && (b = '0' || b = '1' || b = '2')) || (a = '0' && ('1' ≤ b && b ≤ '9'))

/-- One-digit month alternative of `%m`, `[1-9]`. -/
def month1 (a : Char) : Bool := '1' ≤ a && a ≤ '9'

/-- Regex-style matcher for a fixed `strptime` format over the whole input,
with backtracking: the two-digit alternatives of `%d`/`%m` are tried before
the one-digit one, exactly as in the alternation order of Python's `_strptime`
patterns; `%Y` is exactly four digits.  The full input must be consumed. -/
def matchToks : List DTok → List Char → DMY → Option DMY
  | [], [], acc => some acc
  | [], _ :: _, _ => none
  | DTok.lit c :: ts, x :: cs, acc =>
      if x = c then matchToks ts cs acc else none
  | DTok.lit _ :: _, [], _ => none
  | DTok.D :: ts, a :: b :: cs, acc =>
      (if day2 a b then matchToks ts cs { acc with d := charVal a * 10 + charVal b }
       else none) <|>
      (if day1 a then matchToks ts (b :: cs) { acc with d := charVal a } else none)
  | DTok.D :: ts, [a], acc =>
      if day1 a then matchToks ts [] { acc with d := charVal a } else none
  | DTok.D :: _, [], _ => none
  | DTok.M :: ts, a :: b :: cs, acc =>
      (if month2 a b then matchToks ts cs { acc with m := charVal a * 10 + charVal b }
       else none) <|>
      (if month1 a then matchToks ts (b :: cs) { acc with m := charVal a } else none)
  | DTok.M :: ts, [a], acc =>
      if month1 a then matchToks ts [] { acc with m := charVal a } else none
  | DTok.M :: _, [], _ => none
  | DTok.Y :: ts, a :: b :: c :: d :: cs, acc =>
      if a.isDigit && b.isDigit && c.isDigit && d.isDigit then
        matchToks ts cs
          { acc with y := ((charVal a * 10 + charVal b) * 10 + charVal c) * 10 + charVal d }
      else none
  | DTok.Y :: _, [_, _, _], _ => none
  | DTok.Y :: _, [_, _], _ => none
  | DTok.Y :: _, [_], _ => none
  | DTok.Y :: _, [], _ => none

/-- Gregorian leap year (as `datetime` validates it). -/
def isLeap (y : Nat) : Bool := y % 4 = 0 && (y % 100 ≠ 0 || y % 400 = 0)

/-- Days in a month, for `datetime`'s day-of-month validation. -/
def daysInMonth (y m : Nat) : Nat :=
  if m = 2 then (if isLeap y then 29 else 28)
  else if m = 4 || m = 6 || m = 9 || m = 11 then 30
  else 31

/-- The `datetime(y, m, d)` constructor validation performed by `strptime`. -/
def validDate (r : DMY) : Bool :=
  1 ≤ r.y && r.y ≤ 9999 && 1 ≤ r.m && r.m ≤ 12 && 1 ≤ r.d && r.d ≤ daysInMonth r.y r.m

/-- `datetime.strptime(s, fmt)` for one fixed format: full match then date
validation. -/
def strp (fmt : List DTok) (cs : List Char) : Option DMY :=
  match matchToks fmt cs {} with
  | some r => if validDate r then some r else none
  | none => none

/-- `'%d/%m/%Y'`. -/
def fmtDMYslash : List DTok := [DTok.D, DTok.lit '/', DTok.M, DTok.lit '/', DTok.Y]

/-- `'%m/%d/%Y'`. -/
def fmtMDYslash : List DTok := [DTok.M, DTok.lit '/', DTok.D, DTok.lit '/', DTok.Y]

/-- `'%Y-%m-%d'` (ISO). -/
def fmtISO : List DTok := [DTok.Y, DTok.lit '-', DTok.M, DTok.lit '-', DTok.D]

/-- `'%d-%m-%Y'`. -/
def fmtDMYdash : List DTok := [DTok.D, DTok.lit '-', DTok.M, DTok.lit '-', DTok.Y]

/-- `'%Y/%m/%d'`. -/
def fmtYMDslash : List DTok := [DTok.Y, DTok.lit '/', DTok.M, DTok.lit '/', DTok.D]

/-- `'%d.%m.%Y'`. -/
def fmtDMYdot : List DTok := [DTok.D, DTok.lit '.', DTok.M, DTok.lit '.', DTok.Y]

/-- `'%Y%m%d'` (compact). -/
def fmtCompact : List DTok := [DTok.Y, DTok.M, DTok.D]

/-- The `date_formats` list of `_parse_date`, in source order. -/
def dateFormats : List (List DTok) :=
  [fmtDMYslash, fmtMDYslash, fmtISO, fmtDMYdash, fmtYMDslash, fmtDMYdot, fmtCompact]

/-- An ASCII digit character for a digit value (values ≥ 10 never occur). -/
def digitChar : Nat → Char
  | 0 => '0'
  | 1 => '1'
  | 2 => '2'
  | 3 => '3'
  | 4 => '4'
  | 5 => '5'
  | 6 => '6'
  | 7 => '7'
  | 8 => '8'
  | 9 => '9'
  | _ => '0'

/-- Two-digit zero-padded rendering (`%m`, `%d` of `strftime`). -/
def pad2 (n : Nat) : List Char := [digitChar (n / 10), digitChar (n % 10)]

/-- Four-digit zero-padded rendering (`%Y` of `strftime`). -/
def pad4 (n : Nat) : List Char :=
  [digitChar (n / 1000), digitChar (n / 100 % 10), digitChar (n / 10 % 10),
    digitChar (n % 10)]

/-- `parsed_date.strftime('%Y-%m-%d')` as a character list. -/
def isoChars (r : DMY) : List Char := pad4 r.y ++ '-' :: (pad2 r.m ++ '-' :: pad2 r.d)

/-- `parsed_date.strftime('%Y-%m-%d')`. -/
def isoStr (r : DMY) : String := String.mk (isoChars r)

/-- The fixed-format loop of `_parse_date`: the first format in `dateFormats`
order that parses wins, and its result is reformatted as `YYYY-MM-DD`. -/
def tryFormats (s : String) : Option String :=
  (dateFormats.findSome? (fun f => strp f s.data)).map isoStr

/-- `DataCleaner._parse_date`.  Returns `None` (`Value.null`) for missing or
empty input; otherwise stringifies and strips the input, tries the fixed
formats in order, then the permissive `pd.to_datetime(..., dayfirst=True)`
fallback, and if everything fails returns the stripped string as-is.
`none` models the exception `pd.isna` raises on a multi-element list cell
(which never occurs for a scalar dates column). -/
def parse_date (fallback : String → Option String) (v : Value) : Option Value := do
  let na ← pdIsnaB v
  if na || v == Value.str "" then
    pure Value.null
  else
    let s := pyStrip (pyStr v)
    match tryFormats s with
    | some out => pure (Value.str out)
    | none =>
      match fallback s with
      | some out => pure (Value.str out)
      | none => pure (Value.str s)

/-- Bracket characters stripped by `value.strip('[]')`. -/
def isBracketC (c : Char) : Bool := c = '[' || c = ']'

/-- Quote characters removed by `.replace("'", "").replace('"', '')`. -/
def isQuoteC (c : Char) : Bool := c = '\'' || c = '"'

/-- Python `value.strip('[]')`: removes every leading and every trailing
character from the set `{'[', ']'}` (either kind at either end, repeatedly) —
a character strip, not bracket matching. -/
def stripBr (cs : List Char) : List Char :=
  ((cs.dropWhile isBracketC).reverse.dropWhile isBracketC).reverse

/-- Python `s.split(',')`: always one more piece than separators
(`"".split(',') == ['']`). -/
def splitComma (cs : List Char) : List (List Char) :=
  cs.foldr
    (fun c acc =>
      match acc with
      | cur :: rest => if c = ',' then [] :: cur :: rest else (c :: cur) :: rest
      | [] => [[c]])
    [[]]

/-- The string branch of `_parse_array`: strip brackets, drop quotes, and if
anything is left split on `,`, trim each piece, and keep nonempty pieces. -/
def parseArrayChars (cs : List Char) : List String :=
  let body := (stripBr cs).filter (fun c => !isQuoteC c)
  if body.isEmpty then []
  else ((splitComma body).map (fun p => String.mk (trimChars p))).filter
    (fun t => t ≠ "")

/-- `DataCleaner._parse_array`.  `none` models the exception raised when
`pd.isna(value)` is an ambiguous multi-element boolean array (list cell with
two or more elements); every other input yields a list of strings, with
non-string input yielding `[]`. -/
def parse_array (v : Value) : Option (List String) := do
  let na ← pdIsnaB v
  if na || v == Value.str "" then
    pure []
  else
    match v with
    | Value.str s => pure (parseArrayChars s.data)
    | _ => pure []

/-- Strip exactly one leading `[` and one trailing `]` if present — the strip
the specification describes (it differs from Python's `strip('[]')`). -/
def stripOneBr (cs : List Char) : List Char :=
  let l := match cs with
    | '[' :: rest => rest
    | other => other
  match l.reverse with
  | ']' :: rest => rest.reverse
  | _ => l

/-- Modelled from the spec: `parseDelimitedArray` as the claim words it —
"strips exactly one leading `[` and one trailing `]` if present", then removes
quotes, splits on `,`, trims, and drops empty pieces.  Used only to compare
the spec's wording against the code's `strip('[]')`. -/
def parse_array_spec (v : Value) : Option (List String) := do
  let na ← pdIsnaB v
  if na || v == Value.str "" then
    pure []
  else
    match v with
    | Value.str s =>
      let body := ((stripOneBr s.data).filter (fun c => !isQuoteC c))
      if body.isEmpty then pure []
      else pure (((splitComma body).map (fun p => String.mk (trimChars p))).filter
        (fun t => t ≠ ""))
    | _ => pure []

/-- Digit run to a number. -/
def digitsVal (cs : List Char) : Nat :=
  cs.foldl (fun a c => a * 10 + charVal c) 0

/-- `pd.to_numeric(s, errors='coerce')` on a string cell, reduced to the
integer the later `astype(int)` produces: optional surrounding whitespace and
sign, an integer or simple decimal literal; the cast truncates toward zero, so
the fractional digits only need to be well-formed.  (Exponent notation is not
modelled; the claims never touch it.)  `none` is a failed parse (NaN after
coercion). -/
def pdToNumericInt (s : String) : Option Int :=
  match trimChars s.data with
  | [] => none
  | cs =>
    let (neg, body) :=
      match cs with
      | '-' :: r => (true, r)
      | '+' :: r => (false, r)
      | r => (false, r)
    let ip := body.takeWhile (fun c => c ≠ '.')
    let rest := body.dropWhile (fun c => c ≠ '.')
    let ok :=
      match rest with
      | [] => ip.all Char.isDigit && !ip.isEmpty
      | '.' :: fp =>
          ip.all Char.isDigit && fp.all Char.isDigit && !(ip.isEmpty && fp.isEmpty)
      | _ => false
    if ok then
      let n : Int := Int.ofNat (digitsVal ip)
      some (if neg then -n else n)
    else none

/-- One cell of `pd.to_numeric(col, errors='coerce').fillna(0).astype(int)`:
failed parses and missing values become 0, successes are truncated to an
integer.  (A list cell would make `to_numeric` raise even with
`errors='coerce'`; `transformCell` models that exception before this function
is consulted, so the `listV` branch here is unreachable in the pipeline.) -/
def coerce_integer : Value → Int
  | Value.null => 0
  | Value.intV n => n
  | Value.str s => (pdToNumericInt s).getD 0
  | Value.listV _ => 0

/-- The five numeric columns of `transform_data`. -/
def numericCols : List String :=
  ["monthly_listeners", "popularity", "followers", "num_releases", "num_tracks"]

/-- One cell of `col.astype(str).replace('nan', '').replace('None', '')`:
stringify, then map the exact sentinel strings to the empty string
(`Series.replace` matches whole cell values). -/
def sentinelFix (v : Value) : Value :=
  let s := pyStr v
  if s = "nan" || s = "None" then Value.str "" else Value.str s

/-- One cell of `col.str.upper()`: pandas' `.str` accessor upper-cases string
cells and turns every non-string cell into NaN. -/
def pyUpperV : Value → Value
  | Value.str s => Value.str (pyUpper s)
  | _ => Value.null

/-- One cell of the numeric-column coercion: `pd.to_numeric` raises on a list
cell even with `errors='coerce'` (`none`), and any scalar cell coerces via
`coerce_integer`. -/
def toNumericCell : Value → Option Value
  | Value.listV _ => none
  | v => some (Value.intV (coerce_integer v))

/-- The per-cell action of `DataCleaner.transform_data`, selected by column
name (each column transform in the source is cellwise and independent; columns
other than the named ones pass through). -/
def transformCell (fallback : String → Option String) (c : String) (v : Value) :
    Option Value :=
  if c = "dates" then parse_date fallback v
  else if c = "names" then some (pyUpperV v)
  else if numericCols.contains c then toNumericCell v
  else if c = "genres" || c = "feat_track_ids" then (parse_array v).map Value.listV
  else if c = "first_release" || c = "last_release" then some (sentinelFix v)
  else some v

/-- `transform_data` on one row: each present column is transformed in place;
any cell exception aborts the whole transform (the source's batch-abort
behavior). -/
def transformRecord (fallback : String → Option String) (r : Record) :
    Option Record :=
  r.mapM (fun p => (transformCell fallback p.1 p.2).map (fun w => (p.1, w)))

/-- `DataCleaner.transform_data` on a batch. -/
def transform_data (fallback : String → Option String) (b : List Record) :
    Option (List Record) :=
  b.mapM (transformRecord fallback)

/-- The per-cell fixup of `insert_to_database`: the two array columns are sent
as native lists, with any non-list value replaced by `[]`; other cells pass
through. -/
def fixArrayCell (p : String × Value) : String × Value :=
  if p.1 = "genres" || p.1 = "feat_track_ids" then
    match p.2 with
    | Value.listV xs => (p.1, Value.listV xs)
    | _ => (p.1, Value.listV [])
  else p

/-- The row `insert_to_database` builds for one record: the record's columns
and fixed-up values in order and, when inserting into the reject table, the
extra `reject_reason = 'Duplicate ID'` column appended at the end. -/
def dbRow (isReject : Bool) (r : Record) : Record :=
  let vals := r.map fixArrayCell
  if isReject then vals ++ [("reject_reason", Value.str "Duplicate ID")] else vals

/-- A JSON value in the export: string, integer, or array of strings. -/
inductive JVal
  | js (s : String)
  | ji (n : Int)
  | ja (xs : List String)
deriving DecidableEq

/-- Python `int(s)` on a string: optional surrounding whitespace, optional
sign, then decimal digits only (no decimal point); anything else raises. -/
def pyIntParse (s : String) : Option Int :=
  match trimChars s.data with
  | [] => none
  | cs =>
    let (neg, body) :=
      match cs with
      | '-' :: r => (true, r)
      | '+' :: r => (false, r)
      | r => (false, r)
    if body.all Char.isDigit && !body.isEmpty then
      let n : Int := Int.ofNat (digitsVal body)
      some (if neg then -n else n)
    else none

/-- A numeric JSON field, `int(row[c]) if pd.notna(row[c]) else 0`: missing
value gives 0; otherwise `int()` of the cell (which raises, `none`, on a
non-numeric string or a list). -/
def jnum (v : Value) : Option Int := do
  let b ← pdNotna v
  if b then
    match v with
    | Value.intV n => pure n
    | Value.str s =>
      match pyIntParse s with
      | some n => pure n
      | none => none
    | _ => none
  else pure 0

/-- A guarded string JSON field, `str(row[c]) if pd.notna(row[c]) else ""`. -/
def jstrG (v : Value) : Option JVal := do
  let b ← pdNotna v
  pure (if b then JVal.js (pyStr v) else JVal.js "")

/-- The release-date JSON fields:
`str(x) if pd.notna(x) and str(x) not in ['nan', 'None', ''] else ""`. -/
def jstrRel (v : Value) : Option JVal := do
  let b ← pdNotna v
  pure
    (if b && !(pyStr v == "nan" || pyStr v == "None" || pyStr v == "") then
      JVal.js (pyStr v)
    else JVal.js "")

/-- The array JSON fields, `row[c] if isinstance(row[c], list) else []`. -/
def jarr (v : Value) : JVal :=
  match v with
  | Value.listV xs => JVal.ja xs
  | _ => JVal.ja []

/-- The fixed field list of the JSON export, in emission order. -/
def jsonFields : List String :=
  ["dates", "ids", "names", "monthly_listeners", "popularity", "followers",
    "genres", "first_release", "last_release", "num_releases", "num_tracks",
    "playlists_found", "feat_track_ids"]

/-- The JSON value emitted for one field of one record, following the
per-field expression of `save_to_json`'s dict literal: guarded `str()` for
`dates` and `playlists_found`, bare `str()` for `ids` and `names` (no null
guard in the source), guarded `int()` for the five numeric fields, the
sentinel-aware guard for the release fields, and the `isinstance(..., list)`
check for the array fields.  `none` models a raised exception: a missing
column (`KeyError`) or a failing `int()`/truthiness evaluation. -/
def jsonFieldVal (r : Record) (c : String) : Option JVal :=
  if c = "dates" || c = "playlists_found" then (pyLookup r c).bind jstrG
  else if c = "ids" || c = "names" then
    (pyLookup r c).map (fun v => JVal.js (pyStr v))
  else if numericCols.contains c then
    (pyLookup r c).bind (fun v => (jnum v).map JVal.ji)
  else if c = "first_release" || c = "last_release" then (pyLookup r c).bind jstrRel
  else if c = "genres" || c = "feat_track_ids" then (pyLookup r c).map jarr
  else none

/-- One exported record of `save_to_json`, as the ordered field/value pairs of
the emitted JSON object (the dict literal evaluates its fields in listed
order; a raised exception in any of them is `none`). -/
def save_json_record (r : Record) : Option (List (String × JVal)) :=
  jsonFields.mapM (fun c => (jsonFieldVal r c).map (fun j => (c, j)))

/-- `DataCleaner.save_to_json`: the `row_count` and the exported records. -/
def save_to_json (b : List Record) : Option (Nat × List (List (String × JVal))) :=
  (b.mapM save_json_record).map (fun l => (b.length, l))

/-- The dedup key of the pipeline: the `ids` cell (a missing `ids` column
would make pandas raise; `Option` equality treats it as one more key value). -/
def keyIds (r : Record) : Option Value := pyLookup r "ids"

/-- The values `DataCleaner.run` hands to its sinks. -/
structure PipelineOut where
  dbData : List Record
  dbReject : List Record
  csvReject : List Record
  jsonOut : Nat × List (List (String × JVal))
deriving DecidableEq

/-- The data flow of `DataCleaner.run` (steps 2–6): partition on `ids`,
transform each partition, insert the transformed partitions (the duplicates
with `reject_reason` appended), export the raw untransformed duplicates to
CSV, and export the transformed clean batch to JSON.  `none` models a fatal
exception aborting the run. -/
def runPipeline (fallback : String → Option String) (df : List Record) :
    Option PipelineOut := do
  let pr := clean_data keyIds df
  let cleanT ← transform_data fallback pr.1
  let dupT ← transform_data fallback pr.2
  let json ← save_to_json cleanT
  pure
    { dbData := cleanT.map (dbRow false), dbReject := dupT.map (dbRow true),
      csvReject := pr.2, jsonOut := json }

theorem duplicatedMask_length {K R : Type} [DecidableEq K] (key : R → K)
    (seen : List K) (b : List R) :
    (duplicatedMask key seen b).length = b.length := by
  induction b generalizing seen with
  | nil => rfl
  | cons r rs ih =>
    simp only [duplicatedMask]
    split <;> simp [ih]

theorem duplicatedMask_get? {K R : Type} [DecidableEq K] (key : R → K)
    (seen : List K) (b : List R) (i : Nat) (h : i < b.length) :
    (duplicatedMask key seen b).get? i =
      some (decide (key (b.get ⟨i, h⟩) ∈ seen ∨
        key (b.get ⟨i, h⟩) ∈ (b.take i).map key)) := by
  induction b generalizing seen i with
  | nil => exact absurd h (by simp)
  | cons r rs ih =>
    cases i with
    | zero =>
      by_cases hmem : key r ∈ seen <;>
        simp [duplicatedMask, hmem]
    | succ j =>
      have hj : j < rs.length := by simpa using h
      by_cases hmem : key r ∈ seen
      · rw [show duplicatedMask key seen (r :: rs) =
          true :: duplicatedMask key seen rs by simp [duplicatedMask, hmem]]
        rw [List.get?_cons_succ, ih seen j hj]
        simp only [List.get_cons_succ, List.take_succ_cons, List.map_cons,
          List.mem_cons, Option.some.injEq, decide_eq_decide]
        rcases eq_or_ne (key (rs.get ⟨j, hj⟩)) (key r) with he | he <;>
          rw [List.get_eq_getElem] at he
        · constructor
          · rintro (hx | hx)
            · exact Or.inl hx
            · exact Or.inr (Or.inr hx)
          · rintro (hx | hx | hx)
            · exact Or.inl hx
            · exact Or.inl (hx ▸ hmem)
            · exact Or.inr hx
        · tauto
      · rw [show duplicatedMask key seen (r :: rs) =
          false :: duplicatedMask key (key r :: seen) rs by
            simp [duplicatedMask, hmem]]
        rw [List.get?_cons_succ, ih (key r :: seen) j hj]
        simp only [List.get_cons_succ, List.take_succ_cons, List.map_cons,
          List.mem_cons, Option.some.injEq, decide_eq_decide]
        tauto

theorem filter_zip_sublist {R : Type} (b : List R) (m : List Bool)
    (p : Bool → Bool) :
    ((((b.zip m).filter (fun q => p q.2)).map Prod.fst)).Sublist b := by
  induction b generalizing m with
  | nil => simp
  | cons r rs ih =>
    cases m with
    | nil => simp
    | cons x xs =>
      simp only [List.zip_cons_cons, List.filter_cons]
      split
      · simpa using List.Sublist.cons₂ r (ih xs)
      · exact List.Sublist.cons r (ih xs)

theorem filter_partition_perm {R : Type} (l : List (R × Bool)) :
    ((l.filter (fun q => !q.2)).map Prod.fst ++
        (l.filter (fun q => q.2)).map Prod.fst).Perm (l.map Prod.fst) := by
  induction l with
  | nil => simp
  | cons x xs ih =>
    rcases hb : x.2 with _ | _
    · simp only [List.filter_cons, hb, Bool.not_false, List.map_cons]
      simpa using ih.cons x.1
    · simp only [List.filter_cons, hb, Bool.not_true, List.map_cons]
      exact (List.perm_middle.trans (ih.cons x.1))

theorem mem_take_map_iff {K R : Type} (key : R → K) (b : List R) (i : Nat)
    (x : K) :
    x ∈ (b.take i).map key ↔
      ∃ j : Fin b.length, j.val < i ∧ key (b.get j) = x := by
  constructor
  · intro hx
    rcases List.mem_map.mp hx with ⟨a, ha, rfl⟩
    rcases List.mem_iff_getElem.mp ha with ⟨n, hn, rfl⟩
    have hn2 : n < b.length := by
      have := hn
      simp only [List.length_take, lt_inf_iff] at this
      exact this.2
    have hni : n < i := by
      have := hn
      simp only [List.length_take, lt_inf_iff] at this
      exact this.1
    refine ⟨⟨n, hn2⟩, hni, ?_⟩
    rw [List.get_eq_getElem]
    rw [List.getElem_take]
  · rintro ⟨j, hji, rfl⟩
    apply List.mem_map_of_mem
    rw [List.get_eq_getElem, List.getElem_take' b j.isLt hji]
    exact List.getElem_mem _

/-- C1: for every batch and key column, `clean_data` splits the batch into a
clean and a duplicate partition: each partition is a subsequence of the batch
(original order kept, no record mutated or invented), together they
reconstruct the batch as a multiset, and a record lands in the clean partition
(mask entry `false`) exactly when no earlier record has the same key — so the
first occurrence of each key value (a null key being a key value like any
other) is clean and every later occurrence is a duplicate. -/
theorem clean_data_partition_spec {K R : Type} [DecidableEq K] (key : R → K)
    (batch : List R) :
    ((clean_data key batch).1).Sublist batch ∧
    ((clean_data key batch).2).Sublist batch ∧
    ((clean_data key batch).1 ++ (clean_data key batch).2).Perm batch ∧
    ∀ i : Fin batch.length,
      ((duplicatedMask key [] batch).get? i.val = some false ↔
        ∀ j : Fin batch.length, j < i → key (batch.get j) ≠ key (batch.get i)) := by
  refine ⟨filter_zip_sublist batch _ (fun x => !x),
    filter_zip_sublist batch _ (fun x => x), ?_, ?_⟩
  · have hlen : batch.length ≤ (duplicatedMask key [] batch).length := by
      rw [duplicatedMask_length]
    have hmap := List.map_fst_zip batch (duplicatedMask key [] batch) hlen
    have hperm := filter_partition_perm (batch.zip (duplicatedMask key [] batch))
    rw [hmap] at hperm
    exact hperm
  · intro i
    rw [duplicatedMask_get? key [] batch i.val i.isLt, Option.some.injEq,
      decide_eq_false_iff_not, Fin.eta]
    have hmem := mem_take_map_iff key batch i.val (key (batch.get i))
    constructor
    · intro hP j hji heq
      exact hP (Or.inr (hmem.mpr ⟨j, hji, heq⟩))
    · rintro hall (hx | hx)
      · simp at hx
      · rcases hmem.mp hx with ⟨j, hji, hkey⟩
        exact hall j hji hkey

/-- Witness for `clean_data_partition_spec` at a concrete batch with keys
`[1, 2, 1, 3]` (first occurrences of 1, 2, 3 clean, the second 1 duplicate). -/
theorem clean_data_partition_spec_witness :
    ((clean_data Prod.fst [(1, "a"), (2, "b"), (1, "c"), (3, "d")]).1).Sublist
        [(1, "a"), (2, "b"), (1, "c"), (3, "d")] ∧
    ((clean_data Prod.fst [(1, "a"), (2, "b"), (1, "c"), (3, "d")]).2).Sublist
        [(1, "a"), (2, "b"), (1, "c"), (3, "d")] ∧
    ((clean_data Prod.fst [(1, "a"), (2, "b"), (1, "c"), (3, "d")]).1 ++
        (clean_data Prod.fst [(1, "a"), (2, "b"), (1, "c"), (3, "d")]).2).Perm
        [(1, "a"), (2, "b"), (1, "c"), (3, "d")] ∧
    ∀ i : Fin ([((1 : Nat), "a"), (2, "b"), (1, "c"), (3, "d")]).length,
      ((duplicatedMask Prod.fst []
          [((1 : Nat), "a"), (2, "b"), (1, "c"), (3, "d")]).get? i.val = some false ↔
        ∀ j : Fin ([((1 : Nat), "a"), (2, "b"), (1, "c"), (3, "d")]).length,
          j < i →
            Prod.fst (([((1 : Nat), "a"), (2, "b"), (1, "c"), (3, "d")]).get j) ≠
              Prod.fst (([((1 : Nat), "a"), (2, "b"), (1, "c"), (3, "d")]).get i)) :=
  clean_data_partition_spec Prod.fst [(1, "a"), (2, "b"), (1, "c"), (3, "d")]

/-- A fallback that always fails, modelling inputs on which
`pd.to_datetime(..., dayfirst=True)` raises. -/
def noFallback : String → Option String := fun _ => none

theorem mapM_some_mem {α β : Type} (f : α → Option β) (l : List α)
    (l' : List β) (h : l.mapM f = some l') : ∀ b ∈ l', ∃ a ∈ l, f a = some b := by
  induction l generalizing l' with
  | nil =>
    rw [List.mapM_nil] at h
    cases h
    intro b hb
    exact absurd hb (by simp)
  | cons a l ih =>
    rw [List.mapM_cons] at h
    rcases hfa : f a with _ | x <;> rw [hfa] at h
    · cases h
    · rcases hl : l.mapM f with _ | xs <;> rw [hl] at h
      · cases h
      · simp only [Option.bind_eq_bind, Option.some_bind, Option.pure_def,
          Option.some.injEq] at h
        subst h
        intro b hb
        rcases List.mem_cons.mp hb with rfl | hb2
        · exact ⟨a, List.mem_cons_self a l, hfa⟩
        · rcases ih xs hl b hb2 with ⟨a2, ha2, hfa2⟩
          exact ⟨a2, List.mem_cons_of_mem a ha2, hfa2⟩

/-- C3 (counterexample): `_parse_date` returns `None`, not the empty string,
for missing and for empty input — `None` and `""` are distinct values. -/
theorem parse_date_null_counterexample :
    parse_date noFallback Value.null = some Value.null ∧
    parse_date noFallback (Value.str "") = some Value.null ∧
    Value.null ≠ Value.str "" := by
  refine ⟨rfl, rfl, by decide⟩

/-- C3 (amended): `_parse_date` maps null input and the empty string to `None`
(`Value.null`), not to the empty string; the JSON export later renders that
`None` as the empty string. -/
theorem parse_date_null_amended :
    (∀ fallback : String → Option String,
      parse_date fallback Value.null = some Value.null ∧
      parse_date fallback (Value.str "") = some Value.null) ∧
    jstrG Value.null = some (JVal.js "") :=
  ⟨fun _ => ⟨rfl, rfl⟩, rfl⟩

/-- C5 (counterexample): `_parse_array` strips every leading and trailing
bracket character (`strip('[]')`), not exactly one of each as the claim says:
on `"[[a]]"` the code yields `["a"]` while the claimed single-character strip
would yield `["[a]"]`. -/
theorem parse_array_strip_counterexample :
    parse_array (Value.str "[[a]]") = some ["a"] ∧
    parse_array_spec (Value.str "[[a]]") = some ["[a]"] ∧
    (["a"] : List String) ≠ ["[a]"] := by
  refine ⟨by decide, by decide, by decide⟩

/-- C5 (amended): on a nonempty string `_parse_array` strips all leading and
trailing `[`/`]` characters (a character strip over the set, not exactly one
bracket of each kind and not bracket matching), removes all single and double
quotes, and if anything remains splits on `,`, trims each piece, and drops
pieces that are empty after trimming; the claim's concrete examples hold
(`"[a, 'b', \x22c\x22]"` parses to `["a", "b", "c"]`, empty string and null
give the empty sequence). -/
theorem parse_array_strip_amended :
    (∀ s : String, s ≠ "" →
      parse_array (Value.str s) = some (
        let body := (((s.data.dropWhile isBracketC).reverse.dropWhile
            isBracketC).reverse).filter (fun c => !isQuoteC c)
        if body.isEmpty then []
        else ((splitComma body).map (fun p => String.mk (trimChars p))).filter
          (fun t => t ≠ ""))) ∧
    parse_array (Value.str (String.mk
      ['[', 'a', ',', ' ', '\'', 'b', '\'', ',', ' ', '"', 'c', '"', ']'])) =
      some ["a", "b", "c"] ∧
    parse_array (Value.str "") = some [] ∧
    parse_array Value.null = some [] := by
  refine ⟨?_, by decide, rfl, rfl⟩
  intro s hs
  have hbeq : (Value.str s == Value.str "") = false := by
    simp [hs]
  simp only [parse_array, pdIsnaB, Option.bind_eq_bind, Option.some_bind,
    Bool.false_or, hbeq, if_neg, Bool.not_eq_true, parseArrayChars, stripBr]
  rfl

/-- C6 (counterexample): `_parse_array` is not total: on a list cell with two
or more elements the `pd.isna(value)` truth test raises (ambiguous boolean
array), so the call fails instead of returning a sequence. -/
theorem parse_array_total_counterexample :
    parse_array (Value.listV ["a", "b"]) = none ∧
    (none : Option (List String)) ≠ some [] := by
  refine ⟨rfl, by decide⟩

/-- C6 (amended): `_parse_array` returns a sequence of strings for every
null, string, numeric, and at-most-one-element list input — with every
non-string among them yielding the empty sequence — but raises on a list
input of two or more elements (ambiguous truth value of the elementwise
`pd.isna` array). -/
theorem parse_array_total_amended :
    (∀ s : String, ∃ l : List String, parse_array (Value.str s) = some l) ∧
    parse_array Value.null = some [] ∧
    (∀ n : Int, parse_array (Value.intV n) = some []) ∧
    (∀ xs : List String, xs.length ≤ 1 → parse_array (Value.listV xs) = some []) ∧
    (∀ xs : List String, 2 ≤ xs.length → parse_array (Value.listV xs) = none) := by
  refine ⟨?_, rfl, fun n => rfl, ?_, ?_⟩
  · intro s
    by_cases hs : s = ""
    · subst hs
      exact ⟨[], rfl⟩
    · refine ⟨parseArrayChars s.data, ?_⟩
      have hbeq : (Value.str s == Value.str "") = false := by
        simp [hs]
      simp [parse_array, pdIsnaB, hbeq]
  · intro xs hlen
    rcases xs with _ | ⟨x, _ | ⟨y, t⟩⟩
    · rfl
    · rfl
    · simp at hlen
  · intro xs hlen
    rcases xs with _ | ⟨x, _ | ⟨y, t⟩⟩
    · simp at hlen
    · simp at hlen
    · rfl

/-- Witness for `parse_array_strip_amended` at the nonempty string `"[x]"`. -/
theorem parse_array_strip_amended_witness :
    ("[x]" : String) ≠ "" ∧ parse_array (Value.str "[x]") = some ["x"] :=
  ⟨by decide, parse_array_strip_amended.1 "[x]" (by decide)⟩

/-- Witness for `parse_array_total_amended` at a one-element and a two-element
list input. -/
theorem parse_array_total_amended_witness :
    (["a"] : List String).length ≤ 1 ∧
    parse_array (Value.listV ["a"]) = some [] ∧
    2 ≤ (["a", "b"] : List String).length ∧
    parse_array (Value.listV ["a", "b"]) = none :=
  ⟨by decide, parse_array_total_amended.2.2.2.1 ["a"] (by decide), by decide,
    parse_array_total_amended.2.2.2.2 ["a", "b"] (by decide)⟩

theorem transformRecord_cells {fallback : String → Option String} {r r' : Record}
    (h : transformRecord fallback r = some r') :
    ∀ q ∈ r', ∃ p ∈ r, q.1 = p.1 ∧ transformCell fallback p.1 p.2 = some q.2 := by
  intro q hq
  rcases mapM_some_mem _ r r' h q hq with ⟨p, hp, hpq⟩
  rcases hcell : transformCell fallback p.1 p.2 with _ | w <;> rw [hcell] at hpq
  · cases hpq
  · simp only [Option.map_some', Option.some.injEq] at hpq
    subst hpq
    exact ⟨p, hp, rfl, hcell⟩

theorem transformCell_numeric {fallback : String → Option String} {c : String}
    {v w : Value} (hc : c ∈ numericCols)
    (h : transformCell fallback c v = some w) : ∃ n : Int, w = Value.intV n := by
  fin_cases hc <;>
    · rw [transformCell, if_neg (by decide), if_neg (by decide),
        if_pos (by decide)] at h
      rcases v with _ | s | n | xs <;>
        first
          | exact Option.noConfusion h
          | (cases h; exact ⟨_, rfl⟩)

/-- C7: integer coercion of the numeric columns — `"42"` parses to 42,
non-numeric strings, null and empty input coerce to 0 (never an error), a
successful numeric parse is truncated to an integer, and after
`transform_data` every cell of the five numeric columns holds an integer. -/
theorem coerce_integer_spec :
    coerce_integer (Value.str "42") = 42 ∧
    coerce_integer (Value.str "abc") = 0 ∧
    coerce_integer Value.null = 0 ∧
    coerce_integer (Value.str "") = 0 ∧
    (∀ s : String, pdToNumericInt s = none → coerce_integer (Value.str s) = 0) ∧
    (∀ s : String, ∀ n : Int, pdToNumericInt s = some n →
      coerce_integer (Value.str s) = n) ∧
    (∀ (fallback : String → Option String) (b b' : List Record),
      transform_data fallback b = some b' →
      ∀ r ∈ b', ∀ p ∈ r, p.1 ∈ numericCols → ∃ n : Int, p.2 = Value.intV n) := by
  refine ⟨by decide, by decide, rfl, rfl, ?_, ?_, ?_⟩
  · intro s hnone
    simp [coerce_integer, hnone]
  · intro s n hsome
    simp [coerce_integer, hsome]
  · intro fallback b b' hb r hr p hp hcol
    rcases mapM_some_mem _ b b' hb r hr with ⟨r0, _, hr0⟩
    rcases transformRecord_cells hr0 p hp with ⟨p0, _, heq, hcell⟩
    rw [heq] at hcol
    exact transformCell_numeric hcol hcell

/-- Witness for `coerce_integer_spec`: the quantified conjuncts applied at a
concrete failing parse, a concrete successful parse, and a concrete
one-record batch. -/
theorem coerce_integer_spec_witness :
    pdToNumericInt "x7" = none ∧ coerce_integer (Value.str "x7") = 0 ∧
    pdToNumericInt "-3.9" = some (-3) ∧ coerce_integer (Value.str "-3.9") = -3 ∧
    transform_data noFallback [[("popularity", Value.str "abc")]] =
      some [[("popularity", Value.intV 0)]] ∧
    (∀ r ∈ [[("popularity", Value.intV 0)]], ∀ p ∈ r,
      p.1 ∈ numericCols → ∃ n : Int, p.2 = Value.intV n) :=
  ⟨by decide, coerce_integer_spec.2.2.2.2.1 "x7" (by decide), by decide,
    coerce_integer_spec.2.2.2.2.2.1 "-3.9" (-3) (by decide), by decide,
    coerce_integer_spec.2.2.2.2.2.2 noFallback [[("popularity", Value.str "abc")]]
      [[("popularity", Value.intV 0)]] (by decide)⟩

theorem digitChar_isDigit (x : Nat) (h : x < 10) : (digitChar x).isDigit = true := by
  interval_cases x <;> decide

theorem charVal_digitChar (x : Nat) (h : x < 10) : charVal (digitChar x) = x := by
  interval_cases x <;> decide

theorem digitChar_not_ws (x : Nat) (h : x < 10) : isWS (digitChar x) = false := by
  interval_cases x <;> decide

theorem digitChar_ne_seps (x : Nat) (h : x < 10) :
    digitChar x ≠ '/' ∧ digitChar x ≠ '-' ∧ digitChar x ≠ '.' := by
  interval_cases x <;> refine ⟨by decide, by decide, by decide⟩

theorem month2_pad (m : Nat) (h1 : 1 ≤ m) (h2 : m ≤ 12) :
    month2 (digitChar (m / 10)) (digitChar (m % 10)) = true := by
  interval_cases m <;> decide

theorem day2_pad (d : Nat) (h1 : 1 ≤ d) (h2 : d ≤ 31) :
    day2 (digitChar (d / 10)) (digitChar (d % 10)) = true := by
  interval_cases d <;> decide

theorem pad2_val (n : Nat) (h : n < 100) :
    charVal (digitChar (n / 10)) * 10 + charVal (digitChar (n % 10)) = n := by
  rw [charVal_digitChar _ (by omega), charVal_digitChar _ (by omega)]
  omega

theorem pad4_val (y : Nat) (h : y < 10000) :
    ((charVal (digitChar (y / 1000)) * 10 + charVal (digitChar (y / 100 % 10))) * 10 +
        charVal (digitChar (y / 10 % 10))) * 10 + charVal (digitChar (y % 10)) = y := by
  rw [charVal_digitChar _ (by omega), charVal_digitChar _ (by omega),
    charVal_digitChar _ (by omega), charVal_digitChar _ (by omega)]
  omega

theorem validDate_bounds {r : DMY} (h : validDate r = true) :
    1 ≤ r.y ∧ r.y ≤ 9999 ∧ 1 ≤ r.m ∧ r.m ≤ 12 ∧ 1 ≤ r.d ∧
      r.d ≤ daysInMonth r.y r.m := by
  simp only [validDate, Bool.and_eq_true, decide_eq_true_eq] at h
  exact ⟨h.1.1.1.1.1, h.1.1.1.1.2, h.1.1.1.2, h.1.1.2, h.1.2, h.2⟩

theorem daysInMonth_le_31 (y m : Nat) : daysInMonth y m ≤ 31 := by
  rw [daysInMonth]
  split
  · split <;> omega
  · split <;> omega

theorem strp_iso_roundtrip (r : DMY) (h : validDate r = true) :
    strp fmtISO (isoChars r) = some r := by
  obtain ⟨hy1, hy2, hm1, hm2, hd1, hd2⟩ := validDate_bounds h
  have hd31 : r.d ≤ 31 := hd2.trans (daysInMonth_le_31 r.y r.m)
  have hdig1 : (digitChar (r.y / 1000)).isDigit = true := digitChar_isDigit _ (by omega)
  have hdig2 : (digitChar (r.y / 100 % 10)).isDigit = true := digitChar_isDigit _ (by omega)
  have hdig3 : (digitChar (r.y / 10 % 10)).isDigit = true := digitChar_isDigit _ (by omega)
  have hdig4 : (digitChar (r.y % 10)).isDigit = true := digitChar_isDigit _ (by omega)
  have hmon : month2 (digitChar (r.m / 10)) (digitChar (r.m % 10)) = true :=
    month2_pad r.m hm1 hm2
  have hday : day2 (digitChar (r.d / 10)) (digitChar (r.d % 10)) = true :=
    day2_pad r.d hd1 hd31
  rw [strp]
  rw [show isoChars r =
    digitChar (r.y / 1000) :: digitChar (r.y / 100 % 10) ::
      digitChar (r.y / 10 % 10) :: digitChar (r.y % 10) :: '-' ::
      digitChar (r.m / 10) :: digitChar (r.m % 10) :: '-' ::
      digitChar (r.d / 10) :: digitChar (r.d % 10) :: [] from rfl]
  rw [show fmtISO = [DTok.Y, DTok.lit '-', DTok.M, DTok.lit '-', DTok.D] from rfl]
  simp only [matchToks, hdig1, hdig2, hdig3, hdig4, hmon, hday, Bool.and_self,
    Bool.true_and, Bool.and_true, if_true, Option.some_orElse, reduceIte]
  rw [pad4_val r.y (by omega), pad2_val r.m (by omega), pad2_val r.d (by omega)]
  exact if_pos h

theorem matchToks_dmy_slash_iso (r : DMY) (h : validDate r = true) (acc : DMY) :
    matchToks fmtDMYslash (isoChars r) acc = none := by
  obtain ⟨hy1, hy2, _, _, _, _⟩ := validDate_bounds h
  have hne1 : ¬(digitChar (r.y / 10 % 10) = '/') :=
    (digitChar_ne_seps _ (by omega)).1
  have hne2 : ¬(digitChar (r.y / 100 % 10) = '/') :=
    (digitChar_ne_seps _ (by omega)).1
  rw [show isoChars r =
    digitChar (r.y / 1000) :: digitChar (r.y / 100 % 10) ::
      digitChar (r.y / 10 % 10) :: digitChar (r.y % 10) :: '-' ::
      digitChar (r.m / 10) :: digitChar (r.m % 10) :: '-' ::
      digitChar (r.d / 10) :: digitChar (r.d % 10) :: [] from rfl]
  rw [show fmtDMYslash =
    [DTok.D, DTok.lit '/', DTok.M, DTok.lit '/', DTok.Y] from rfl]
  simp only [matchToks, if_neg hne1, if_neg hne2, ite_self, Option.orElse_none,
    Option.none_orElse]

theorem matchToks_mdy_slash_iso (r : DMY) (h : validDate r = true) (acc : DMY) :
    matchToks fmtMDYslash (isoChars r) acc = none := by
  obtain ⟨hy1, hy2, _, _, _, _⟩ := validDate_bounds h
  have hne1 : ¬(digitChar (r.y / 10 % 10) = '/') :=
    (digitChar_ne_seps _ (by omega)).1
  have hne2 : ¬(digitChar (r.y / 100 % 10) = '/') :=
    (digitChar_ne_seps _ (by omega)).1
  rw [show isoChars r =
    digitChar (r.y / 1000) :: digitChar (r.y / 100 % 10) ::
      digitChar (r.y / 10 % 10) :: digitChar (r.y % 10) :: '-' ::
      digitChar (r.m / 10) :: digitChar (r.m % 10) :: '-' ::
      digitChar (r.d / 10) :: digitChar (r.d % 10) :: [] from rfl]
  rw [show fmtMDYslash =
    [DTok.M, DTok.lit '/', DTok.D, DTok.lit '/', DTok.Y] from rfl]
  simp only [matchToks, if_neg hne1, if_neg hne2, ite_self, Option.orElse_none,
    Option.none_orElse]

theorem strp_valid {f : List DTok} {cs : List Char} {r : DMY}
    (h : strp f cs = some r) : validDate r = true := by
  rw [strp] at h
  split at h
  · split at h
    · cases h
      assumption
    · cases h
  · cases h

theorem tryFormats_iso (r : DMY) (h : validDate r = true) :
    tryFormats (isoStr r) = some (isoStr r) := by
  have h1 : strp fmtDMYslash (isoChars r) = none := by
    rw [strp, matchToks_dmy_slash_iso r h]
  have h2 : strp fmtMDYslash (isoChars r) = none := by
    rw [strp, matchToks_mdy_slash_iso r h]
  have hdata : (isoStr r).data = isoChars r := rfl
  rw [tryFormats, hdata, dateFormats]
  rw [List.findSome?_cons, h1, List.findSome?_cons, h2, List.findSome?_cons,
    strp_iso_roundtrip r h]
  rfl

theorem tryFormats_out {s out : String} (h : tryFormats s = some out) :
    ∃ r : DMY, validDate r = true ∧ out = isoStr r := by
  rw [tryFormats] at h
  rcases hf : (dateFormats.findSome? fun f => strp f s.data) with _ | r <;>
    rw [hf] at h
  · cases h
  · simp only [Option.map_some', Option.some.injEq] at h
    rcases List.exists_of_findSome?_eq_some hf with ⟨fmt, _, hstrp⟩
    exact ⟨r, strp_valid hstrp, h.symm⟩

theorem trimChars_isoChars (r : DMY) (h : validDate r = true) :
    trimChars (isoChars r) = isoChars r := by
  obtain ⟨hy1, hy2, _, _, _, _⟩ := validDate_bounds h
  have h1 : isWS (digitChar (r.y / 1000)) = false := digitChar_not_ws _ (by omega)
  have h2 : isWS (digitChar (r.d % 10)) = false := digitChar_not_ws _ (by omega)
  rw [show isoChars r =
    digitChar (r.y / 1000) :: digitChar (r.y / 100 % 10) ::
      digitChar (r.y / 10 % 10) :: digitChar (r.y % 10) :: '-' ::
      digitChar (r.m / 10) :: digitChar (r.m % 10) :: '-' ::
      digitChar (r.d / 10) :: digitChar (r.d % 10) :: [] from rfl]
  rw [trimChars]
  rw [List.dropWhile_cons, if_neg (by rw [h1]; exact Bool.false_ne_true)]
  simp only [List.reverse_cons, List.reverse_nil, List.nil_append,
    List.cons_append, List.append_assoc, List.singleton_append]
  rw [List.dropWhile_cons, if_neg (by rw [h2]; exact Bool.false_ne_true)]
  simp [List.reverse_cons]

theorem isoStr_ne_empty (r : DMY) : isoStr r ≠ "" := by
  intro hcon
  have : (isoStr r).data = ("" : String).data := by rw [hcon]
  simp [isoStr, isoChars, pad4, pad2] at this

theorem pyStrip_isoStr (r : DMY) (h : validDate r = true) :
    pyStrip (isoStr r) = isoStr r := by
  rw [pyStrip, show (isoStr r).data = isoChars r from rfl,
    trimChars_isoChars r h, isoStr]

theorem dropWhile_eq_self_of_head {α : Type} (p : α → Bool) (l : List α)
    (h : ∀ a, l.head? = some a → p a = false) : List.dropWhile p l = l := by
  cases l with
  | nil => rfl
  | cons a t =>
    rw [List.dropWhile_cons, if_neg]
    rw [h a rfl]
    exact Bool.false_ne_true

theorem head_trimR_not_ws {y : List Char} (hy0 : List.dropWhile isWS y = y) :
    ∀ a, ((y.reverse.dropWhile isWS).reverse).head? = some a → isWS a = false := by
  intro a ha
  rw [List.head?_reverse] at ha
  rcases List.dropWhile_suffix (l := y.reverse) isWS with ⟨t, ht⟩
  have hylast : y.reverse.getLast? = some a := by
    rw [← ht, List.getLast?_append, ha]
    rfl
  have hyhead : y.head? = some a := by
    rw [← List.getLast?_reverse]
    exact hylast
  rcases y with _ | ⟨b, ys⟩
  · cases hyhead
  · simp only [List.head?_cons, Option.some.injEq] at hyhead
    subst hyhead
    by_contra hbt
    rw [Bool.not_eq_false] at hbt
    rw [List.dropWhile_cons, if_pos hbt] at hy0
    have hlen := congrArg List.length hy0
    have hle : (List.dropWhile isWS ys).length ≤ ys.length :=
      List.Sublist.length_le (List.IsSuffix.sublist (List.dropWhile_suffix _))
    simp only [List.length_cons] at hlen
    omega

theorem trimChars_idem (l : List Char) : trimChars (trimChars l) = trimChars l := by
  rw [trimChars, trimChars]
  rw [dropWhile_eq_self_of_head isWS _
    (head_trimR_not_ws (List.dropWhile_idempotent _ _))]
  rw [List.reverse_reverse]
  exact dropWhile_eq_self_of_head isWS _
    (head_trimR_not_ws (List.dropWhile_idempotent _ _))

theorem pyStrip_idem (s : String) : pyStrip (pyStrip s) = pyStrip s := by
  rw [pyStrip, pyStrip, show (String.mk (trimChars s.data)).data =
    trimChars s.data from rfl, trimChars_idem]

theorem parse_date_str (fb : String → Option String) (s : String) (hs : s ≠ "") :
    parse_date fb (Value.str s) =
      match tryFormats (pyStrip s) with
      | some out => some (Value.str out)
      | none =>
        match fb (pyStrip s) with
        | some out => some (Value.str out)
        | none => some (Value.str (pyStrip s)) := by
  have hbeq : (Value.str s == Value.str "") = false := by
    simp [hs]
  simp only [parse_date, pdIsnaB, Option.bind_eq_bind, Option.some_bind, hbeq,
    Bool.false_or, Bool.false_eq_true, if_false, pyStr, Option.pure_def]

theorem tryFormats_empty : tryFormats "" = none := rfl

/-- C2: `_parse_date` on nonempty strings strips surrounding whitespace and
tries the seven fixed formats in the source's priority order — `%d/%m/%Y`,
`%m/%d/%Y`, `%Y-%m-%d`, `%d-%m-%Y`, `%Y/%m/%d`, `%d.%m.%Y`, `%Y%m%d` —
returning the first successful parse reformatted as `YYYY-MM-DD`; in
particular `"13/04/2024"` parses day-first to `"2024-04-13"`, the ambiguous
`"01/02/2024"` resolves day-first to `"2024-02-01"`, and ISO `"2024-04-13"`
round-trips. -/
theorem parse_date_formats_spec :
    dateFormats =
      [fmtDMYslash, fmtMDYslash, fmtISO, fmtDMYdash, fmtYMDslash, fmtDMYdot,
        fmtCompact] ∧
    (∀ s : String, tryFormats s =
      (dateFormats.findSome? (fun f => strp f s.data)).map isoStr) ∧
    (∀ (fb : String → Option String) (s : String), s ≠ "" → ∀ out : String,
      tryFormats (pyStrip s) = some out →
      parse_date fb (Value.str s) = some (Value.str out)) ∧
    (∀ fb : String → Option String,
      parse_date fb (Value.str "13/04/2024") = some (Value.str "2024-04-13")) ∧
    (∀ fb : String → Option String,
      parse_date fb (Value.str "01/02/2024") = some (Value.str "2024-02-01")) ∧
    (∀ fb : String → Option String,
      parse_date fb (Value.str "2024-04-13") = some (Value.str "2024-04-13")) := by
  refine ⟨rfl, fun s => rfl, ?_, ?_, ?_, ?_⟩
  · intro fb s hs out hout
    rw [parse_date_str fb s hs, hout]
  · intro fb
    rw [parse_date_str fb _ (by decide)]
    rfl
  · intro fb
    rw [parse_date_str fb _ (by decide)]
    rfl
  · intro fb
    rw [parse_date_str fb _ (by decide)]
    rfl

/-- Witness for `parse_date_formats_spec`: the quantified format-priority
conjunct applied at a concrete whitespace-wrapped input. -/
theorem parse_date_formats_spec_witness :
    (" 13/04/2024" : String) ≠ "" ∧
    tryFormats (pyStrip " 13/04/2024") = some "2024-04-13" ∧
    parse_date noFallback (Value.str " 13/04/2024") =
      some (Value.str "2024-04-13") :=
  ⟨by decide, by decide,
    parse_date_formats_spec.2.2.1 noFallback " 13/04/2024" (by decide)
      "2024-04-13" (by decide)⟩

/-- C4 (counterexample): when every format and the fallback fail,
`_parse_date` returns the *stripped* input, not the original input character
for character: on `" not-a-date"` it returns `"not-a-date"` with the leading
whitespace removed. -/
theorem parse_date_fallback_counterexample :
    parse_date noFallback (Value.str " not-a-date") =
      some (Value.str "not-a-date") ∧
    Value.str "not-a-date" ≠ Value.str " not-a-date" := by
  refine ⟨?_, by decide⟩
  rw [parse_date_str noFallback _ (by decide)]
  rfl

/-- C4 (amended): for every nonempty input string on which all seven fixed
formats and the permissive fallback fail, `_parse_date` returns the input
with surrounding whitespace stripped — equal to the original string exactly
when the original had no surrounding whitespace, as in
`parseDate("not-a-date") = "not-a-date"` — rather than raising an error. -/
theorem parse_date_fallback_amended :
    (∀ (fb : String → Option String) (s : String), s ≠ "" →
      tryFormats (pyStrip s) = none → fb (pyStrip s) = none →
      parse_date fb (Value.str s) = some (Value.str (pyStrip s))) ∧
    (∀ fb : String → Option String, fb "not-a-date" = none →
      parse_date fb (Value.str "not-a-date") = some (Value.str "not-a-date")) := by
  constructor
  · intro fb s hs h1 h2
    rw [parse_date_str fb s hs, h1, h2]
  · intro fb hfb
    rw [parse_date_str fb _ (by decide)]
    have h1 : tryFormats (pyStrip "not-a-date") = none := by decide
    have h2 : pyStrip "not-a-date" = "not-a-date" := by decide
    rw [h1, h2, hfb]

/-- Witness for `parse_date_fallback_amended` at a concrete unparsable
input with surrounding whitespace and the always-failing fallback. -/
theorem parse_date_fallback_amended_witness :
    (" abc " : String) ≠ "" ∧
    tryFormats (pyStrip " abc ") = none ∧
    noFallback (pyStrip " abc ") = none ∧
    parse_date noFallback (Value.str " abc ") = some (Value.str "abc") ∧
    noFallback "not-a-date" = none ∧
    parse_date noFallback (Value.str "not-a-date") =
      some (Value.str "not-a-date") :=
  ⟨by decide, by decide, rfl,
    parse_date_fallback_amended.1 noFallback " abc " (by decide) (by decide) rfl,
    rfl, parse_date_fallback_amended.2 noFallback rfl⟩

theorem char_ofNat_toNat_sub (m : Nat) (h1 : 65 ≤ m) (h2 : m ≤ 90) :
    (Char.ofNat m).toNat = m := by
  interval_cases m <;> decide

theorem charUpper_eq_self {c : Char} (h : ¬(97 ≤ c.toNat ∧ c.toNat ≤ 122)) :
    charUpper c = c := by
  rw [charUpper, if_neg h]

theorem charUpper_idem (c : Char) : charUpper (charUpper c) = charUpper c := by
  by_cases h : 97 ≤ c.toNat ∧ c.toNat ≤ 122
  · have hcu : charUpper c = Char.ofNat (c.toNat - 32) := by
      rw [charUpper, if_pos h]
    rw [hcu]
    apply charUpper_eq_self
    rw [char_ofNat_toNat_sub (c.toNat - 32) (by omega) (by omega)]
    omega
  · rw [charUpper_eq_self h, charUpper_eq_self h]

theorem pyUpper_idem (s : String) : pyUpper (pyUpper s) = pyUpper s := by
  rw [pyUpper, pyUpper]
  rw [show (String.mk (s.data.map charUpper)).data = s.data.map charUpper from rfl]
  rw [List.map_map]
  congr 1
  exact List.map_congr_left (fun a _ => charUpper_idem a)

theorem pyUpperV_idem (v : Value) : pyUpperV (pyUpperV v) = pyUpperV v := by
  rcases v with _ | s | n | xs
  · rfl
  · rw [show pyUpperV (Value.str s) = Value.str (pyUpper s) from rfl,
      show pyUpperV (Value.str (pyUpper s)) =
        Value.str (pyUpper (pyUpper s)) from rfl, pyUpper_idem]
  · rfl
  · rfl

theorem sentinelFix_idem (v : Value) : sentinelFix (sentinelFix v) = sentinelFix v := by
  by_cases hb : (pyStr v = "nan" || pyStr v = "None") = true
  · have hfix : sentinelFix v = Value.str "" := by
      rw [sentinelFix, if_pos hb]
    rw [hfix]
    decide
  · have hfix : sentinelFix v = Value.str (pyStr v) := by
      rw [sentinelFix, if_neg hb]
    rw [hfix, sentinelFix]
    have h2 : pyStr (Value.str (pyStr v)) = pyStr v := rfl
    rw [h2, if_neg hb]

/-- Decidable well-formedness of a dates cell for the idempotence statement:
missing, or a string that is not a nonempty all-whitespace string (such a
string strips to empty on the first pass and then turns into `None` on the
second, breaking idempotence). -/
def okDateCell : Value → Bool
  | Value.null => true
  | Value.str s => !(pyStrip s == "") || (s == "")
  | _ => false

theorem okDateCell_elim {v : Value} (h : okDateCell v = true) :
    v = Value.null ∨ ∃ s, v = Value.str s ∧ (pyStrip s = "" → s = "") := by
  rcases v with _ | s | n | xs
  · exact Or.inl rfl
  · right
    refine ⟨s, rfl, ?_⟩
    intro hstrip
    rw [okDateCell, Bool.or_eq_true, Bool.not_eq_true', beq_eq_false_iff_ne,
      beq_iff_eq] at h
    rcases h with h | h
    · exact absurd hstrip h
    · exact h
  · cases h
  · cases h

theorem parse_date_out_idem (fb : String → Option String)
    (hfb : ∀ s t, fb s = some t → pyStrip t = t ∧ tryFormats t = some t)
    {v w : Value}
    (hv : v = Value.null ∨ ∃ s, v = Value.str s ∧ (pyStrip s = "" → s = ""))
    (hw : parse_date fb v = some w) : parse_date fb w = some w := by
  rcases hv with rfl | ⟨s, rfl, hws⟩
  · cases hw
    rfl
  · by_cases hs : s = ""
    · subst hs
      cases hw
      rfl
    · rw [parse_date_str fb s hs] at hw
      rcases htf : tryFormats (pyStrip s) with _ | out <;> rw [htf] at hw
      · rcases hfb2 : fb (pyStrip s) with _ | t <;> rw [hfb2] at hw
        · cases hw
          have hne : pyStrip s ≠ "" := fun hcon => hs (hws hcon)
          rw [parse_date_str fb _ hne, pyStrip_idem, htf, hfb2]
        · cases hw
          obtain ⟨htrim, hre⟩ := hfb (pyStrip s) t hfb2
          have hne : t ≠ "" := by
            intro hcon
            rw [hcon, tryFormats_empty] at hre
            cases hre
          rw [parse_date_str fb t hne, htrim, hre]
      · cases hw
        rcases tryFormats_out htf with ⟨r, hval, rfl⟩
        rw [parse_date_str fb _ (isoStr_ne_empty r), pyStrip_isoStr r hval,
          tryFormats_iso r hval]

theorem mapM_idem {α : Type} (f : α → Option α) (l l' : List α)
    (h : l.mapM f = some l')
    (hstep : ∀ a ∈ l, ∀ b, f a = some b → f b = some b) :
    l'.mapM f = some l' := by
  induction l generalizing l' with
  | nil =>
    rw [List.mapM_nil] at h
    cases h
    rfl
  | cons a l ih =>
    rw [List.mapM_cons] at h
    rcases hfa : f a with _ | x <;> rw [hfa] at h
    · cases h
    · rcases hl : l.mapM f with _ | xs <;> rw [hl] at h
      · cases h
      · simp only [Option.bind_eq_bind, Option.some_bind, Option.pure_def,
          Option.some.injEq] at h
        subst h
        rw [List.mapM_cons, hstep a (List.mem_cons_self a l) x hfa,
          ih xs hl (fun a2 ha2 => hstep a2 (List.mem_cons_of_mem a ha2))]
        rfl

theorem transformCell_idem (fb : String → Option String)
    (hfb : ∀ s t, fb s = some t → pyStrip t = t ∧ tryFormats t = some t)
    (c : String) (v w : Value)
    (harr : c ≠ "genres" ∧ c ≠ "feat_track_ids")
    (hdates : c = "dates" → okDateCell v = true)
    (h : transformCell fb c v = some w) :
    transformCell fb c w = some w := by
  by_cases h1 : c = "dates"
  · subst h1
    rw [transformCell, if_pos rfl] at h ⊢
    exact parse_date_out_idem fb hfb (okDateCell_elim (hdates rfl)) h
  · by_cases h2 : c = "names"
    · subst h2
      rw [transformCell, if_neg (by decide), if_pos rfl] at h ⊢
      cases h
      rw [pyUpperV_idem]
    · by_cases h3 : numericCols.contains c = true
      · rw [transformCell, if_neg h1, if_neg h2, if_pos h3] at h ⊢
        rcases v with _ | s | n | xs
        · cases h
          rfl
        · cases h
          rfl
        · cases h
          rfl
        · exact Option.noConfusion h
      · have h4 : ¬((c = "genres" || c = "feat_track_ids") = true) := by
          simp only [Bool.or_eq_true, decide_eq_true_eq]
          tauto
        by_cases h5 : (c = "first_release" || c = "last_release") = true
        · rw [transformCell, if_neg h1, if_neg h2, if_neg h3, if_neg h4,
            if_pos h5] at h ⊢
          cases h
          rw [sentinelFix_idem]
        · rw [transformCell, if_neg h1, if_neg h2, if_neg h3, if_neg h4,
            if_neg h5] at h ⊢

theorem transformRecord_idem (fb : String → Option String)
    (hfb : ∀ s t, fb s = some t → pyStrip t = t ∧ tryFormats t = some t)
    (r r' : Record)
    (harr : ∀ p ∈ r, p.1 ≠ "genres" ∧ p.1 ≠ "feat_track_ids")
    (hdates : ∀ p ∈ r, p.1 = "dates" → okDateCell p.2 = true)
    (h : transformRecord fb r = some r') : transformRecord fb r' = some r' := by
  apply mapM_idem _ r r' h
  intro p hp q hq
  rcases hc2 : transformCell fb p.1 p.2 with _ | w <;> rw [hc2] at hq
  · cases hq
  · simp only [Option.map_some', Option.some.injEq] at hq
    subst hq
    have hidem := transformCell_idem fb hfb p.1 p.2 w (harr p hp) (hdates p hp) hc2
    simp only [hidem, Option.map_some']

theorem transform_data_idem_aux (fb : String → Option String)
    (hfb : ∀ s t, fb s = some t → pyStrip t = t ∧ tryFormats t = some t)
    (b b' : List Record)
    (harr : ∀ r ∈ b, ∀ p ∈ r, p.1 ≠ "genres" ∧ p.1 ≠ "feat_track_ids")
    (hdates : ∀ r ∈ b, ∀ p ∈ r, p.1 = "dates" → okDateCell p.2 = true)
    (h : transform_data fb b = some b') : transform_data fb b' = some b' := by
  apply mapM_idem _ b b' h
  intro r hr r' hr'
  exact transformRecord_idem fb hfb r r' (harr r hr) (hdates r hr) hr'

/-- C8 (counterexample): the batch transform is not idempotent: an array
column already parsed to a sequence does not map to itself but to the empty
sequence (`isinstance(value, str)` fails, so `_parse_array` returns `[]`);
transforming `[{genres: "a"}]` once gives `genres = ["a"]`, transforming
twice gives `genres = []`. -/
theorem transform_idempotent_counterexample :
    (transform_data noFallback [[("genres", Value.str "a")]]).bind
        (transform_data noFallback) ≠
      transform_data noFallback [[("genres", Value.str "a")]] ∧
    transform_data noFallback [[("genres", Value.str "a")]] =
      some [[("genres", Value.listV ["a"])]] ∧
    (transform_data noFallback [[("genres", Value.str "a")]]).bind
        (transform_data noFallback) =
      some [[("genres", Value.listV [])]] := by
  refine ⟨by decide, by decide, by decide⟩

/-- C8 (amended): the batch transform is idempotent on batches without the
two array columns (`genres`, `feat_track_ids`), provided every dates cell is
null or a string that is not a nonempty all-whitespace string, and the
permissive fallback's outputs are stripped and re-parse to themselves (true
of `pd.to_datetime(...).strftime('%Y-%m-%d')`): dates already `YYYY-MM-DD`
re-parse to themselves through the ISO branch, upper-cased names, coerced
integers and sentinel-normalized release fields are fixed points.  Array
columns break idempotence (see the counterexample), and a whitespace-only
dates string strips to `""` on the first pass and becomes null on the
second. -/
theorem transform_idempotent_amended (fb : String → Option String)
    (hfb : ∀ s t, fb s = some t → pyStrip t = t ∧ tryFormats t = some t)
    (batch : List Record)
    (harr : ∀ r ∈ batch, ∀ p ∈ r, p.1 ≠ "genres" ∧ p.1 ≠ "feat_track_ids")
    (hdates : ∀ r ∈ batch, ∀ p ∈ r, p.1 = "dates" → okDateCell p.2 = true) :
    (transform_data fb batch).bind (transform_data fb) =
      transform_data fb batch := by
  rcases htd : transform_data fb batch with _ | b'
  · rfl
  · show transform_data fb b' = some b'
    exact transform_data_idem_aux fb hfb batch b' harr hdates htd

/-- The concrete batch used by the idempotence witness. -/
def wIdemBatch : List Record :=
  [[("ids", Value.str "1"), ("dates", Value.str "13/04/2024"),
    ("names", Value.str "ab"), ("popularity", Value.str "42"),
    ("first_release", Value.str "nan")]]

/-- Witness for `transform_idempotent_amended` at a concrete batch covering
the dates, names, numeric and release columns. -/
theorem transform_idempotent_amended_witness :
    (∀ r ∈ wIdemBatch, ∀ p ∈ r, p.1 ≠ "genres" ∧ p.1 ≠ "feat_track_ids") ∧
    (∀ r ∈ wIdemBatch, ∀ p ∈ r, p.1 = "dates" → okDateCell p.2 = true) ∧
    (transform_data noFallback wIdemBatch).bind (transform_data noFallback) =
      transform_data noFallback wIdemBatch ∧
    (transform_data noFallback wIdemBatch).isSome = true :=
  ⟨by decide, by decide,
    transform_idempotent_amended noFallback (fun _ _ h => Option.noConfusion h)
      wIdemBatch (by decide) (by decide), by decide⟩

theorem mapM_length {α β : Type} (f : α → Option β) (l : List α) (l' : List β)
    (h : l.mapM f = some l') : l'.length = l.length := by
  induction l generalizing l' with
  | nil =>
    rw [List.mapM_nil] at h
    cases h
    rfl
  | cons a l ih =>
    rw [List.mapM_cons] at h
    rcases hfa : f a with _ | x <;> rw [hfa] at h
    · cases h
    · rcases hl : l.mapM f with _ | xs <;> rw [hl] at h
      · cases h
      · simp only [Option.bind_eq_bind, Option.some_bind, Option.pure_def,
          Option.some.injEq] at h
        subst h
        simp [ih xs hl]

theorem mapM_map_pres {α β γ : Type} (f : α → Option β) (g1 : α → γ) (g2 : β → γ)
    (l : List α) (l' : List β) (h : l.mapM f = some l')
    (hpres : ∀ a b, f a = some b → g2 b = g1 a) : l'.map g2 = l.map g1 := by
  induction l generalizing l' with
  | nil =>
    rw [List.mapM_nil] at h
    cases h
    rfl
  | cons a l ih =>
    rw [List.mapM_cons] at h
    rcases hfa : f a with _ | x <;> rw [hfa] at h
    · cases h
    · rcases hl : l.mapM f with _ | xs <;> rw [hl] at h
      · cases h
      · simp only [Option.bind_eq_bind, Option.some_bind, Option.pure_def,
          Option.some.injEq] at h
        subst h
        simp only [List.map_cons, hpres a x hfa, ih xs hl]

theorem transformRecord_fst {fb : String → Option String} {r r' : Record}
    (h : transformRecord fb r = some r') :
    r'.map Prod.fst = r.map Prod.fst := by
  apply mapM_map_pres _ Prod.fst Prod.fst r r' h
  intro p q hpq
  rcases hc : transformCell fb p.1 p.2 with _ | w <;> rw [hc] at hpq
  · cases hpq
  · simp only [Option.map_some', Option.some.injEq] at hpq
    subst hpq
    rfl

theorem fixArrayCell_fst (p : String × Value) : (fixArrayCell p).1 = p.1 := by
  obtain ⟨c, v⟩ := p
  rw [fixArrayCell]
  split
  · rcases v with _ | s | n | xs <;> rfl
  · rfl

theorem dbRow_false_fst (r : Record) :
    (dbRow false r).map Prod.fst = r.map Prod.fst := by
  show (r.map fixArrayCell).map Prod.fst = r.map Prod.fst
  rw [List.map_map]
  exact List.map_congr_left (fun p _ => fixArrayCell_fst p)

theorem hasCol_false_fsts {r : Record} {c : String} (h : hasCol r c = false) :
    ∀ p ∈ r, p.1 ≠ c := by
  intro p hp hcon
  rw [hasCol] at h
  have hmem : c ∈ r.map Prod.fst := hcon ▸ List.mem_map_of_mem Prod.fst hp
  have htrue : (r.map Prod.fst).contains c = true :=
    List.elem_eq_true_of_mem hmem
  rw [htrue] at h
  cases h

theorem hasCol_eq_of_fst {r r' : Record} (h : r'.map Prod.fst = r.map Prod.fst)
    (c : String) : hasCol r' c = hasCol r c := by
  rw [hasCol, hasCol, h]

/-- C9: in `run`'s data flow the `reject_reason = "Duplicate ID"` column is
attached to each transformed duplicate record only in the rows built for the
`data_reject` sink; the CSV reject export receives exactly the raw
untransformed duplicate partition (a subsequence of the input batch,
verbatim), which carries no `reject_reason` column, and the clean-sink rows
carry none either. -/
theorem reject_reason_placement (fb : String → Option String) (df : List Record)
    (hdf : ∀ r ∈ df, hasCol r "reject_reason" = false) :
    ∀ out : PipelineOut, runPipeline fb df = some out →
      out.csvReject = (clean_data keyIds df).2 ∧
      out.csvReject.Sublist df ∧
      (∀ r ∈ out.csvReject, hasCol r "reject_reason" = false) ∧
      (∀ r ∈ out.dbData, hasCol r "reject_reason" = false) ∧
      (∀ r ∈ out.dbReject, pyLookup r "reject_reason" =
        some (Value.str "Duplicate ID")) ∧
      out.dbReject.length = out.csvReject.length := by
  intro out hout
  simp only [runPipeline, Option.bind_eq_bind] at hout
  rcases h1 : transform_data fb (clean_data keyIds df).1 with _ | cleanT <;>
    rw [h1] at hout
  · exact Option.noConfusion hout
  simp only [Option.some_bind] at hout
  rcases h2 : transform_data fb (clean_data keyIds df).2 with _ | dupT <;>
    rw [h2] at hout
  · exact Option.noConfusion hout
  simp only [Option.some_bind] at hout
  rcases h3 : save_to_json cleanT with _ | json <;> rw [h3] at hout
  · exact Option.noConfusion hout
  simp only [Option.some_bind, Option.pure_def, Option.some.injEq] at hout
  subst hout
  have hdupSub : ((clean_data keyIds df).2).Sublist df :=
    filter_zip_sublist df _ (fun x => x)
  have hfsts : ∀ r0 ∈ dupT, ∀ p ∈ r0, p.1 ≠ "reject_reason" := by
    intro r0 hr0 p hp
    rcases mapM_some_mem _ _ _ h2 r0 hr0 with ⟨r1, hr1, htr⟩
    have hfst := transformRecord_fst htr
    have hr1df : r1 ∈ df := hdupSub.subset hr1
    have hnone := hasCol_false_fsts (hdf r1 hr1df)
    have hpmem : p.1 ∈ r1.map Prod.fst := by
      rw [← hfst]
      exact List.mem_map_of_mem Prod.fst hp
    rcases List.mem_map.mp hpmem with ⟨q, hq, hqfst⟩
    rw [← hqfst]
    exact hnone q hq
  refine ⟨rfl, hdupSub, ?_, ?_, ?_, ?_⟩
  · intro r hr
    exact hdf r (hdupSub.subset hr)
  · intro r hr
    rcases List.mem_map.mp hr with ⟨r0, hr0, rfl⟩
    rw [hasCol_eq_of_fst (dbRow_false_fst r0)]
    rcases mapM_some_mem _ _ _ h1 r0 hr0 with ⟨r1, hr1, htr⟩
    rw [hasCol_eq_of_fst (transformRecord_fst htr)]
    exact hdf r1 ((filter_zip_sublist df _ (fun x => !x)).subset hr1)
  · intro r hr
    rcases List.mem_map.mp hr with ⟨r0, hr0, rfl⟩
    show pyLookup ((r0.map fixArrayCell) ++
      [("reject_reason", Value.str "Duplicate ID")]) "reject_reason" =
      some (Value.str "Duplicate ID")
    rw [pyLookup, List.find?_append]
    have hfind : (r0.map fixArrayCell).find?
        (fun p => p.1 = "reject_reason") = none := by
      rw [List.find?_eq_none]
      intro x hx
      rcases List.mem_map.mp hx with ⟨p0, hp0, rfl⟩
      simp only [decide_eq_true_eq]
      rw [fixArrayCell_fst p0]
      exact hfsts r0 hr0 p0 hp0
    rw [hfind, Option.none_or]
    rfl
  · show (dupT.map (dbRow true)).length = ((clean_data keyIds df).2).length
    rw [List.length_map]
    exact mapM_length _ _ _ h2

/-- The record constructor for the pipeline witness batch (all thirteen
export columns present). -/
def mkRec (i : String) : Record :=
  [("dates", Value.str "2024-04-13"), ("ids", Value.str i),
    ("names", Value.str "x"), ("monthly_listeners", Value.intV 1),
    ("popularity", Value.intV 2), ("followers", Value.intV 3),
    ("genres", Value.str "[a]"), ("first_release", Value.str "2020"),
    ("last_release", Value.str "2021"), ("num_releases", Value.intV 4),
    ("num_tracks", Value.intV 5), ("playlists_found", Value.str "p"),
    ("feat_track_ids", Value.str "")]

/-- The pipeline witness batch: `ids = [1, 2, 1, 3]` as in the spec's
end-to-end scenario. -/
def wDf : List Record := [mkRec "1", mkRec "2", mkRec "1", mkRec "3"]

/-- Witness for `reject_reason_placement` at the spec's end-to-end scenario
batch; the pipeline succeeds on it. -/
theorem reject_reason_placement_witness :
    (∀ r ∈ wDf, hasCol r "reject_reason" = false) ∧
    (runPipeline noFallback wDf).isSome = true ∧
    (∀ out : PipelineOut, runPipeline noFallback wDf = some out →
      out.csvReject = (clean_data keyIds wDf).2 ∧
      out.csvReject.Sublist wDf ∧
      (∀ r ∈ out.csvReject, hasCol r "reject_reason" = false) ∧
      (∀ r ∈ out.dbData, hasCol r "reject_reason" = false) ∧
      (∀ r ∈ out.dbReject, pyLookup r "reject_reason" =
        some (Value.str "Duplicate ID")) ∧
      out.dbReject.length = out.csvReject.length) :=
  ⟨by decide, by decide, reject_reason_placement noFallback wDf (by decide)⟩

/-- Whether a cell holds a list value. -/
def isListV : Value → Bool
  | Value.listV _ => true
  | _ => false

/-- Whether a cell is missing or an integer (the shape the transformed
numeric columns always have). -/
def isNullOrInt : Value → Bool
  | Value.null => true
  | Value.intV _ => true
  | _ => false

theorem jstrG_isSome {v : Value} (h : isListV v = false) :
    (jstrG v).isSome = true := by
  rcases v with _ | s | n | xs
  · rfl
  · rfl
  · rfl
  · cases h

theorem jstrRel_isSome {v : Value} (h : isListV v = false) :
    (jstrRel v).isSome = true := by
  rcases v with _ | s | n | xs
  · rfl
  · rfl
  · rfl
  · cases h

theorem jnum_isSome {v : Value} (h : isNullOrInt v = true) :
    ((jnum v).map JVal.ji).isSome = true := by
  rcases v with _ | s | n | xs
  · rfl
  · cases h
  · rfl
  · cases h

theorem bind_jstrG_isSome {o : Option Value} (ho : o.isSome = true)
    (h : ∀ v, o = some v → isListV v = false) : (o.bind jstrG).isSome = true := by
  rcases o with _ | v
  · cases ho
  · exact jstrG_isSome (h v rfl)

theorem bind_jstrRel_isSome {o : Option Value} (ho : o.isSome = true)
    (h : ∀ v, o = some v → isListV v = false) :
    (o.bind jstrRel).isSome = true := by
  rcases o with _ | v
  · cases ho
  · exact jstrRel_isSome (h v rfl)

theorem bind_jnum_isSome {o : Option Value} (ho : o.isSome = true)
    (h : ∀ v, o = some v → isNullOrInt v = true) :
    (o.bind (fun v => (jnum v).map JVal.ji)).isSome = true := by
  rcases o with _ | v
  · cases ho
  · exact jnum_isSome (h v rfl)

theorem map_isSome_of_isSome {α β : Type} (f : α → β) (o : Option α)
    (ho : o.isSome = true) : (o.map f).isSome = true := by
  rcases o with _ | v
  · cases ho
  · rfl

theorem mapM_tag {γ : Type} (F : String → Option γ) (l : List String)
    (hF : ∀ c ∈ l, (F c).isSome = true) :
    ∃ fs : List (String × γ),
      l.mapM (fun c => (F c).map (fun j => (c, j))) = some fs ∧
      fs.map Prod.fst = l ∧
      (∀ c j, c ∈ l → F c = some j → (c, j) ∈ fs) := by
  induction l with
  | nil =>
    refine ⟨[], rfl, rfl, ?_⟩
    intro c j hc
    cases hc
  | cons a l ih =>
    have ha := hF a (List.mem_cons_self a l)
    rcases hFa : F a with _ | j0
    · rw [hFa] at ha
      cases ha
    · rcases ih (fun c hc => hF c (List.mem_cons_of_mem a hc)) with
        ⟨fs, hfs, hmap, hmem⟩
      refine ⟨(a, j0) :: fs, ?_, ?_, ?_⟩
      · rw [List.mapM_cons]
        simp only [hFa, Option.map_some', hfs, Option.bind_eq_bind,
          Option.some_bind, Option.pure_def]
      · simp [hmap]
      · intro c j hc hFc
        rcases List.mem_cons.mp hc with rfl | hc2
        · rw [hFa] at hFc
          cases hFc
          exact List.mem_cons_self _ _
        · exact List.mem_cons_of_mem _ (hmem c j hc2 hFc)

/-- C10 (amended): the JSON export emits the thirteen fields in the listed
order; a null source value becomes 0 for the five numeric fields and the
empty string for `dates`, `playlists_found`, `first_release`, `last_release`
(whose guards coalesce it), but becomes the string `"nan"` for `ids` and
`names`, which the source stringifies without a null guard; `genres` and
`feat_track_ids` are emitted as arrays of strings (`[]` for any non-sequence
value).  All thirteen columns must be present (a missing column raises), the
numeric cells must be null or integers and the guarded string cells
non-sequences (as the transformed pipeline batch guarantees). -/
theorem save_to_json_defaults (r : Record)
    (hpres : ∀ c ∈ jsonFields, (pyLookup r c).isSome = true)
    (hnum : ∀ c ∈ numericCols, ∀ v, pyLookup r c = some v → isNullOrInt v = true)
    (hscal : ∀ c ∈ ["dates", "playlists_found", "first_release", "last_release"],
      ∀ v, pyLookup r c = some v → isListV v = false) :
    ∃ fs, save_json_record r = some fs ∧
      fs.map Prod.fst = jsonFields ∧
      (∀ c ∈ numericCols, pyLookup r c = some Value.null → (c, JVal.ji 0) ∈ fs) ∧
      (∀ c ∈ ["dates", "playlists_found"], pyLookup r c = some Value.null →
        (c, JVal.js "") ∈ fs) ∧
      (∀ c ∈ ["first_release", "last_release"], pyLookup r c = some Value.null →
        (c, JVal.js "") ∈ fs) ∧
      (∀ c ∈ ["ids", "names"], pyLookup r c = some Value.null →
        (c, JVal.js "nan") ∈ fs) ∧
      (∀ c ∈ ["genres", "feat_track_ids"], ∀ v, pyLookup r c = some v →
        (c, jarr v) ∈ fs) := by
  have hF : ∀ c ∈ jsonFields, (jsonFieldVal r c).isSome = true := by
    intro c hc
    fin_cases hc
    · exact bind_jstrG_isSome (hpres "dates" (by decide))
        (hscal "dates" (by decide))
    · exact map_isSome_of_isSome _ _ (hpres "ids" (by decide))
    · exact map_isSome_of_isSome _ _ (hpres "names" (by decide))
    · exact bind_jnum_isSome (hpres "monthly_listeners" (by decide))
        (hnum "monthly_listeners" (by decide))
    · exact bind_jnum_isSome (hpres "popularity" (by decide))
        (hnum "popularity" (by decide))
    · exact bind_jnum_isSome (hpres "followers" (by decide))
        (hnum "followers" (by decide))
    · exact map_isSome_of_isSome _ _ (hpres "genres" (by decide))
    · exact bind_jstrRel_isSome (hpres "first_release" (by decide))
        (hscal "first_release" (by decide))
    · exact bind_jstrRel_isSome (hpres "last_release" (by decide))
        (hscal "last_release" (by decide))
    · exact bind_jnum_isSome (hpres "num_releases" (by decide))
        (hnum "num_releases" (by decide))
    · exact bind_jnum_isSome (hpres "num_tracks" (by decide))
        (hnum "num_tracks" (by decide))
    · exact bind_jstrG_isSome (hpres "playlists_found" (by decide))
        (hscal "playlists_found" (by decide))
    · exact map_isSome_of_isSome _ _ (hpres "feat_track_ids" (by decide))
  rcases mapM_tag (jsonFieldVal r) jsonFields hF with ⟨fs, hfs, hmap, hmem⟩
  refine ⟨fs, hfs, hmap, ?_, ?_, ?_, ?_, ?_⟩
  · intro c hc hnull
    fin_cases hc <;>
      exact hmem _ _ (by decide)
        ((congrArg (fun o => o.bind (fun v => (jnum v).map JVal.ji))
          hnull).trans rfl)
  · intro c hc hnull
    fin_cases hc <;>
      exact hmem _ _ (by decide)
        ((congrArg (fun o => o.bind jstrG) hnull).trans rfl)
  · intro c hc hnull
    fin_cases hc <;>
      exact hmem _ _ (by decide)
        ((congrArg (fun o => o.bind jstrRel) hnull).trans rfl)
  · intro c hc hnull
    fin_cases hc <;>
      exact hmem _ _ (by decide)
        ((congrArg (fun o => o.map (fun v => JVal.js (pyStr v)))
          hnull).trans rfl)
  · intro c hc v hv
    fin_cases hc <;>
      exact hmem _ _ (by decide)
        ((congrArg (fun o => o.map jarr) hv).trans rfl)

/-- The concrete record for the JSON-export claim: all thirteen columns,
with nulls in every field kind. -/
def rEx10 : Record :=
  [("dates", Value.null), ("ids", Value.str "1"), ("names", Value.null),
    ("monthly_listeners", Value.null), ("popularity", Value.intV 3),
    ("followers", Value.null), ("genres", Value.listV ["g"]),
    ("first_release", Value.null), ("last_release", Value.str "x"),
    ("num_releases", Value.null), ("num_tracks", Value.null),
    ("playlists_found", Value.null), ("feat_track_ids", Value.null)]

/-- C10 (counterexample): a null `names` cell is exported as the string
`"nan"` (bare `str(row['names'])`, no null guard), not as the empty string
the claim requires for every string field. -/
theorem save_json_null_string_counterexample :
    save_json_record rEx10 = some
      [("dates", JVal.js ""), ("ids", JVal.js "1"), ("names", JVal.js "nan"),
        ("monthly_listeners", JVal.ji 0), ("popularity", JVal.ji 3),
        ("followers", JVal.ji 0), ("genres", JVal.ja ["g"]),
        ("first_release", JVal.js ""), ("last_release", JVal.js "x"),
        ("num_releases", JVal.ji 0), ("num_tracks", JVal.ji 0),
        ("playlists_found", JVal.js ""), ("feat_track_ids", JVal.ja [])] ∧
    JVal.js "nan" ≠ JVal.js "" := by
  refine ⟨by decide, by decide⟩

/-- Witness for `save_to_json_defaults` at `rEx10`. -/
theorem save_to_json_defaults_witness :
    (∀ c ∈ jsonFields, (pyLookup rEx10 c).isSome = true) ∧
    (∀ c ∈ numericCols, ∀ v, pyLookup rEx10 c = some v →
      isNullOrInt v = true) ∧
    (∀ c ∈ ["dates", "playlists_found", "first_release", "last_release"],
      ∀ v, pyLookup rEx10 c = some v → isListV v = false) ∧
    (∃ fs, save_json_record rEx10 = some fs ∧
      fs.map Prod.fst = jsonFields ∧
      (∀ c ∈ numericCols, pyLookup rEx10 c = some Value.null →
        (c, JVal.ji 0) ∈ fs) ∧
      (∀ c ∈ ["dates", "playlists_found"], pyLookup rEx10 c = some Value.null →
        (c, JVal.js "") ∈ fs) ∧
      (∀ c ∈ ["first_release", "last_release"],
        pyLookup rEx10 c = some Value.null → (c, JVal.js "") ∈ fs) ∧
      (∀ c ∈ ["ids", "names"], pyLookup rEx10 c = some Value.null →
        (c, JVal.js "nan") ∈ fs) ∧
      (∀ c ∈ ["genres", "feat_track_ids"], ∀ v, pyLookup rEx10 c = some v →
        (c, jarr v) ∈ fs)) :=
  ⟨by decide, by decide, by decide,
    save_to_json_defaults rEx10 (by decide) (by decide) (by decide)⟩
